import Mathlib

/-!
Verification of the kpawnd.github.io terminal-OS simulation.

The presentation layer (src/js/terminal.js, src/js/grub.js, src/js/storage.js)
is embedded directly from the JavaScript source.  The simulation engine itself
(the `System`, `GrubMenu` and VFS objects of the `pkg/terminal_os` WASM module)
is not part of the repository snapshot, so those operations are modelled from
the specification and are marked as such in their doc comments.

Strings are modelled as `List Char`; JavaScript string helpers (`trim`,
`startsWith`, `endsWith`, `split`, `join`, `slice`, `repeat`, `replace`)
are given explicit executable counterparts.
-/

set_option autoImplicit false

namespace Kpawnd

/-- JavaScript strings, modelled as lists of characters. -/
abbrev Str := List Char

/-- Whitespace as removed by JavaScript `String.prototype.trim`. -/
def isWsChar (c : Char) : Bool :=
  c == ' ' || c == '\t' || c == '\n' || c == '\r'

/-- JavaScript `s.trim()`: drop whitespace from both ends. -/
def jsTrim (s : Str) : Str :=
  ((s.dropWhile isWsChar).reverse.dropWhile isWsChar).reverse

/-- JavaScript `s.startsWith(p)`: `hasPre p s` is true when `p` heads `s`. -/
def hasPre : Str → Str → Bool
  | [], _ => true
  | _ :: _, [] => false
  | a :: as, b :: bs => a == b && hasPre as bs

/-- JavaScript `s.endsWith(p)`, via the reversed strings. -/
def hasSuf (p s : Str) : Bool :=
  hasPre p.reverse s.reverse

/-- JavaScript `s.split(sep)` for a one-character separator: the result is
never empty and empty fields are kept. -/
def jsSplit (sep : Char) : Str → List Str
  | [] => [[]]
  | c :: rest =>
    match jsSplit sep rest with
    | [] => [[]]
    | w :: ws => if c == sep then [] :: w :: ws else (c :: w) :: ws

/-- JavaScript `parts.join(sep)`. -/
def jsJoin (sep : Str) : List Str → Str
  | [] => []
  | [w] => w
  | w :: ws => w ++ sep ++ jsJoin sep ws

/-- JavaScript `s.slice(n, -1)`: drop `n` characters from the front and one
from the back (used to peel `\x1b[TAG:payload]` wrappers). -/
def jsSliceDrop (n : Nat) (s : Str) : Str :=
  (s.drop n).dropLast

/-- `hasPre` really is the prefix relation. -/
theorem hasPre_iff (p s : Str) : hasPre p s = true ↔ ∃ t, s = p ++ t := by
  induction p generalizing s with
  | nil => simp [hasPre]
  | cons a as ih =>
    cases s with
    | nil => simp [hasPre]
    | cons b bs =>
      simp only [hasPre, Bool.and_eq_true, beq_iff_eq, ih, List.cons_append,
        List.cons.injEq]
      constructor
      · rintro ⟨rfl, t, rfl⟩; exact ⟨t, rfl, rfl⟩
      · rintro ⟨t, rfl, rfl⟩; exact ⟨rfl, t, rfl⟩

/-- A string starts with any of its initial segments. -/
theorem hasPre_append (p t : Str) : hasPre p (p ++ t) = true :=
  (hasPre_iff p (p ++ t)).mpr ⟨t, rfl⟩

/-- Extending a string on the right preserves its start. -/
theorem hasPre_of_append {p a : Str} (b : Str) (h : hasPre p a = true) :
    hasPre p (a ++ b) = true := by
  rcases (hasPre_iff p a).mp h with ⟨t, rfl⟩
  simpa [List.append_assoc] using hasPre_append p (t ++ b)

/- ----------------------------------------------------------------------
Password masking (src/js/terminal.js, handleTerminalKey, input events).

While in password mode the real input element's value is compared with the
hidden `passwordBuffer`; appended characters are stripped of asterisks and
appended to the buffer, deletions truncate the buffer, and the visible value
is replaced by one asterisk per buffered character.
---------------------------------------------------------------------- -/

/-- One `input`-event step of the password masking logic of
`handleTerminalKey`: `buf` is `passwordBuffer`, `cur` is `input.value`. -/
def maskStep (buf cur : Str) : Str :=
  if buf.length < cur.length then
    buf ++ (cur.drop buf.length).filter (fun c => c ≠ '*')
  else if cur.length < buf.length then
    buf.take cur.length
  else
    buf

/-- The masked text displayed after a step: `'*'.repeat(passwordBuffer.length)`. -/
def maskDisplay (buf : Str) : Str :=
  List.replicate buf.length '*'

/- ----------------------------------------------------------------------
The simulation engine (`System` of pkg/terminal_os).

The engine is a WASM module whose source is not in the repository snapshot;
the session/sudo part of its state and its `exec` contract are modelled from
the specification (§3 Session, §4.2 Shell, §4.3 Session/Authentication).
Outputs of ordinary builtins are irrelevant to every claim and are kept
abstract as a parameter `bout`.
---------------------------------------------------------------------- -/

/-- Modelled from the spec: the session state of the WASM `System` object
(`pkg/terminal_os`, not under src/): username, stored password, and the
pending `sudo` command (§3 "Session"). -/
structure Sys where
  username : Option Str
  userPassword : Option Str
  sudoPending : Option Str
  deriving DecidableEq, Repr

/-- Modelled from the spec: `System.is_waiting_for_sudo` (§6) is true exactly
while a `sudo` command is pending its password. -/
def Sys.is_waiting_for_sudo (s : Sys) : Bool :=
  s.sudoPending.isSome

/-- Modelled from the spec: `System.set_user` (§6) records the active user. -/
def Sys.set_user (s : Sys) (u : Str) : Sys :=
  { s with username := some u }

/-- Modelled from the spec: `System.set_user_password` (§6) records the
session password used by the sudo check. -/
def Sys.set_user_password (s : Sys) (p : Str) : Sys :=
  { s with userPassword := some p }

/-- Modelled from the spec: the fixed builtin table of the interpreter
(§4.2 "matches the first token against a fixed builtin table"). -/
def builtins : List Str :=
  ["help", "clear", "ls", "cd", "pwd", "cat", "echo", "mkdir", "touch",
   "rm", "nano", "neofetch", "whoami", "uname", "date", "history",
   "python", "exit", "reboot"].map String.toList

/-- The shell-style unrecognized-command message (§4.2, §7
`UnrecognizedCommand`): `sh: <word>: command not found`. -/
def cnfMsg (w : Str) : Str :=
  "sh: ".toList ++ w ++ ": command not found".toList

/-- The authentication-failure message of the sudo check (§7
`AuthenticationFailed`). -/
def authFailMsg : Str :=
  "sudo: Authentication failure".toList

/-- First whitespace-delimited token of an already-trimmed line. -/
def firstWord (t : Str) : Str :=
  (jsSplit ' ' t).headI

/-- The literal `"sudo "` used to recognize privilege-escalated lines. -/
def sudoPre : Str := "sudo ".toList

/-- Modelled from the spec: execution of a single non-`sudo` command line by
the engine (§4.2).  `reboot` is privilege-gated: elevated it yields the
`REBOOT` control token, otherwise a permission error (§4.2 "permits `reboot`
... that are otherwise blocked").  Other builtins produce text through the
abstract output function `bout`; an unmatched first token produces the
`command not found` message. -/
def runCommand (bout : Str → Str) (elevated : Bool) (t : Str) : Str :=
  let w := firstWord t
  if w = "reboot".toList then
    if elevated then "\x1b[REBOOT]".toList
    else "reboot: Permission denied".toList
  else if w ∈ builtins then bout t
  else cnfMsg w

/-- Modelled from the spec: `System.exec` (§4.2, §8 "Sudo flow").  While a
`sudo` command is pending, the submitted line is consumed as the single
password attempt: a match runs the pending command elevated, a mismatch
reports authentication failure; both clear the pending state.  Otherwise a
`sudo `-prefixed line stores the pending command and prompts, and any other
line is executed unelevated. -/
def Sys.exec (bout : Str → Str) (s : Sys) (line : Str) : Sys × Str :=
  match s.sudoPending with
  | some pend =>
    if s.userPassword = some line then
      ({ s with sudoPending := none }, runCommand bout true pend)
    else
      ({ s with sudoPending := none }, authFailMsg)
  | none =>
    let t := jsTrim line
    if t = [] then (s, [])
    else if hasPre sudoPre t then
      ({ s with sudoPending := some (t.drop 5) },
       "[sudo] password for user:".toList)
    else
      (s, runCommand bout false t)

/- ----------------------------------------------------------------------
The presentation layer's command handler (src/js/terminal.js,
handleCommand).  DOM and network interactions are recorded as an ordered
list of effects.
---------------------------------------------------------------------- -/

/-- One observable action of `handleCommand` / `autocomplete` /
`handleLoginInput` / the GRUB screen (a `print` call, a DOM update, a
network call, or a dispatched control action). -/
inductive Effect where
  | printCommand (s : Str)
  | printOutput (s : Str)
  | printInfo (s : Str)
  | printError (s : Str)
  | clearOutput
  | neofetch
  | setPythonRepl (b : Bool)
  | setPromptText (s : Str)
  | startDoom
  | startScreensaver
  | fetchUrl (u : Str)
  | curlRequest (payload : Str)
  | pingHost (h : Str)
  | dnsHost (h : Str)
  | myIp
  | openUrl (u : Str)
  | nanoOpen (payload : Str)
  | kernelPanic (m : Str)
  | rebootEvent
  | fallbackExec (cmd : Str)
  | promptRefresh
  | scroll
  | hideGrub
  | showTerminal
  | beginBoot
  deriving DecidableEq, Repr

/-- The `\x1b[CLEAR]` control token (§6). -/
def tokCLEAR : Str := "\x1b[CLEAR]".toList
/-- The `\x1b[EXIT]` control token (§6). -/
def tokEXIT : Str := "\x1b[EXIT]".toList
/-- The `\x1b[NEOFETCH_DATA]` control token. -/
def tokNEOFETCH : Str := "\x1b[NEOFETCH_DATA]".toList
/-- The `\x1b[PYTHON_REPL]` control token (§6). -/
def tokPYTHON : Str := "\x1b[PYTHON_REPL]".toList
/-- The `\x1b[LAUNCH_DOOM]` control token (§6 `LAUNCH_<id>`). -/
def tokDOOM : Str := "\x1b[LAUNCH_DOOM]".toList
/-- The `\x1b[LAUNCH_SNAKE]` control token. -/
def tokSNAKE : Str := "\x1b[LAUNCH_SNAKE]".toList
/-- The `\x1b[LAUNCH_SCREENSAVER]` control token. -/
def tokSAVER : Str := "\x1b[LAUNCH_SCREENSAVER]".toList
/-- The `\x1b[FETCH:` token head (§6). -/
def tokFETCH : Str := "\x1b[FETCH:".toList
/-- The `\x1b[CURL:` token head (§6). -/
def tokCURL : Str := "\x1b[CURL:".toList
/-- The `\x1b[PING:` token head (§6). -/
def tokPING : Str := "\x1b[PING:".toList
/-- The `\x1b[DNS:` token head (§6). -/
def tokDNS : Str := "\x1b[DNS:".toList
/-- The `\x1b[MYIP]` token head (§6). -/
def tokMYIP : Str := "\x1b[MYIP]".toList
/-- The `\x1b[OPEN:` token head (§6). -/
def tokOPEN : Str := "\x1b[OPEN:".toList
/-- The `\x1b[NANO:` token head (§6). -/
def tokNANO : Str := "\x1b[NANO:".toList
/-- The `\x1b[KERNEL_PANIC]` token head (§6). -/
def tokPANIC : Str := "\x1b[KERNEL_PANIC]".toList
/-- The `\x1b[REBOOT]` control token (§6). -/
def tokREBOOT : Str := "\x1b[REBOOT]".toList
/-- The `sh:` head of an unrecognized-command message. -/
def shHead : Str := "sh:".toList
/-- The `command not found` tail of an unrecognized-command message. -/
def cnfTail : Str := "command not found".toList

/-- The result-dispatch cascade of `handleCommand` (terminal.js lines
196-264): matches the engine result against the control tokens, else prints
it; a `command not found` result for a `sudo`/`reboot` line is printed as an
error and handling returns early (second component `true`), otherwise such a
result triggers the out-of-sandbox fallback `fetch('/exec')`. -/
def dispatchResult (cmd result : Str) : List Effect × Bool :=
  if result = tokCLEAR then ([.clearOutput], false)
  else if result = tokEXIT then ([.printInfo "logout".toList], false)
  else if result = tokNEOFETCH then ([.neofetch], false)
  else if result = tokPYTHON then
    ([.setPythonRepl true,
      .printInfo "Python 3.11.0 (sandboxed, Rust-backed)".toList,
      .printInfo "Type \x22exit()\x22 to exit".toList,
      .setPromptText ">>> ".toList], false)
  else if hasPre tokDOOM result || hasPre tokSNAKE result then
    ([.startDoom], false)
  else if hasPre tokSAVER result then ([.startScreensaver], false)
  else if hasPre tokFETCH result then ([.fetchUrl (jsSliceDrop 8 result)], false)
  else if hasPre tokCURL result then ([.curlRequest (jsSliceDrop 7 result)], false)
  else if hasPre tokPING result then ([.pingHost (jsSliceDrop 7 result)], false)
  else if hasPre tokDNS result then ([.dnsHost (jsSliceDrop 6 result)], false)
  else if hasPre tokMYIP result then ([.myIp], false)
  else if hasPre tokOPEN result then ([.openUrl (jsSliceDrop 7 result)], false)
  else if hasPre tokNANO result then ([.nanoOpen (jsSliceDrop 7 result)], false)
  else if hasPre tokPANIC result then ([.kernelPanic (result.drop 15)], false)
  else if result = tokREBOOT then
    ([.printInfo "Rebooting...".toList, .rebootEvent], false)
  else if result ≠ [] ∧ jsTrim result ≠ [] then
    if hasPre shHead result = true ∧ hasSuf cnfTail result = true then
      if hasPre sudoPre (jsTrim cmd) = true ∨ jsTrim cmd = "reboot".toList then
        ([.printError result], true)
      else
        ([.fallbackExec cmd], false)
    else ([.printOutput result], false)
  else ([], false)

/-- `handleCommand` of terminal.js: echo the command line (skipped for
`clear` and whenever the engine is waiting for a sudo password), run it
through the engine, dispatch the result, and — unless the dispatch returned
early — refresh the prompt and scroll. -/
def handleCommand (bout : Str → Str) (promptText : Str) (s : Sys)
    (cmd : Str) : Sys × List Effect :=
  let waiting := s.is_waiting_for_sudo
  let echoFx : List Effect :=
    if jsTrim cmd = "clear".toList then []
    else if waiting then []
    else [.printCommand (promptText ++ cmd)]
  let r := s.exec bout cmd
  let d := dispatchResult cmd r.2
  if d.2 then (r.1, echoFx ++ d.1)
  else (r.1, echoFx ++ d.1 ++ [.promptRefresh, .scroll])

/- ----------------------------------------------------------------------
Login flow (src/js/terminal.js handleLoginInput, src/js/storage.js
saveUserInfo).
---------------------------------------------------------------------- -/

/-- The login stage of the session (`state.loginStage`). -/
inductive LoginStage where
  | username
  | password
  | done
  deriving DecidableEq, Repr

/-- The state touched by the login flow: the stage, the username stashed in
`input.dataset.username`, the persisted identity record
(`localStorage[USER_INFO_KEY]` / `state.user`), and the engine session. -/
structure LoginState where
  stage : LoginStage
  datasetUsername : Option Str
  storedUser : Option (Str × Str)
  sys : Sys
  deriving DecidableEq, Repr

/-- `saveUserInfo` of storage.js: persist the identity record
`(username, password)` and mirror it into `state.user`. -/
def saveUserInfo (st : LoginState) (username pw : Str) : LoginState :=
  { st with storedUser := some (username, pw) }

/-- `handleLoginInput` of terminal.js: in the username stage stash the
trimmed username (default `user`) and advance to the password stage; in the
password stage persist the record, inform the engine via `set_user` and
`set_user_password`, and advance to done. -/
def handleLoginInput (st : LoginState) (text : Str) :
    LoginState × List Effect :=
  match st.stage with
  | .username =>
    let username := if jsTrim text = [] then "user".toList else jsTrim text
    ({ st with datasetUsername := some username, stage := .password },
     [.printOutput "Password:".toList])
  | .password =>
    let username := st.datasetUsername.getD "user".toList
    let pw := text
    let st1 := saveUserInfo st username pw
    let sys1 := (st1.sys.set_user username).set_user_password pw
    ({ st1 with sys := sys1, stage := .done },
     [.printOutput ("Hello ".toList ++ username ++ "!".toList),
      .promptRefresh])
  | .done => (st, [])

/- ----------------------------------------------------------------------
Tab completion (src/js/terminal.js autocomplete).  The engine's
`complete` is kept abstract as a parameter.
---------------------------------------------------------------------- -/

/-- `autocomplete` of terminal.js: split the input on spaces, complete the
last token; one match replaces that token in the input, several are printed
in the order returned, zero does nothing.  The first component is the new
value of the input element. -/
def autocomplete (complete : Str → List Str) (inputValue : Str) :
    Str × List Effect :=
  let parts := jsSplit ' ' inputValue
  let word := parts.getLastD []
  let completions := complete word
  if completions.length = 1 then
    (jsJoin " ".toList (parts.dropLast ++ [completions.headI]), [])
  else if 1 < completions.length then
    (inputValue, [.printInfo (jsJoin "  ".toList completions)])
  else
    (inputValue, [])

/- ----------------------------------------------------------------------
GRUB bootloader screen (src/js/grub.js).  The menu object lives in the
WASM engine; its tick/should_boot/get_selected operations are modelled
from the specification (§3 "Bootloader Menu", §4.4).
---------------------------------------------------------------------- -/

/-- The bootloader menu mode (§4.4). -/
inductive GrubMode where
  | mainMenu
  | advanced
  | editCmdline
  | commandLine
  deriving DecidableEq, Repr

/-- Modelled from the spec: the WASM `GrubMenu` state (§3 "Bootloader
Menu"): entries, selected index, mode, and the remaining countdown. -/
structure GrubMenu where
  entries : List Str
  selectedIndex : Nat
  mode : GrubMode
  countdown : Nat
  deriving DecidableEq, Repr

/-- Modelled from the spec: `GrubMenu.tick` — the countdown decrements once
per external tick, only in Main mode (§3, §4.4, §5); the returned Boolean
(`shouldContinue` in grub.js) reports whether the countdown is still
running. -/
def GrubMenu.tick (g : GrubMenu) : GrubMenu × Bool :=
  match g.mode with
  | .mainMenu =>
    let c := g.countdown - 1
    ({ g with countdown := c }, decide (0 < c))
  | _ => (g, true)

/-- Modelled from the spec: `GrubMenu.should_boot` — the countdown has
reached zero in Main mode (§4.4 "reaching zero behaves as if Enter were
pressed"). -/
def GrubMenu.should_boot (g : GrubMenu) : Bool :=
  g.mode == .mainMenu && g.countdown == 0

/-- Modelled from the spec: `GrubMenu.get_selected` returns the selected
entry index. -/
def GrubMenu.get_selected (g : GrubMenu) : Nat :=
  g.selectedIndex

/-- `bootSelected` of grub.js: hide the GRUB screen, show the terminal and
start the boot; index 2 first detours through the simulated UEFI screen. -/
def bootSelectedFx (selected : Nat) : List Effect :=
  if selected = 2 then
    [.hideGrub, .showTerminal,
     .printInfo "Entering UEFI Firmware Settings...".toList,
     .printInfo "(Simulated - no real firmware access)".toList,
     .printOutput [],
     .clearOutput, .beginBoot]
  else
    [.hideGrub, .showTerminal, .beginBoot]

/-- One firing of the GRUB countdown interval (grub.js lines 75-84): tick
the menu and, when the tick reports completion or `should_boot` holds,
clear the interval, remove the key handler and boot the selected entry.
The middle component records whether the interval was cleared. -/
def grubIntervalStep (g : GrubMenu) : GrubMenu × Bool × List Effect :=
  let t := g.tick
  if !t.2 || t.1.should_boot then (t.1, true, bootSelectedFx t.1.get_selected)
  else (t.1, false, [])

/-- The Enter branch of `handleGrubKey` (grub.js lines 54-59): cancel the
countdown and boot the currently selected entry. -/
def grubEnterFx (g : GrubMenu) : List Effect :=
  bootSelectedFx g.get_selected

/-- What `showGrub` leaves behind: the text rendered into the `pre` element
and whether the keyboard handler and the countdown interval were
installed. -/
structure ShowGrubOutcome where
  rendered : Str
  keyHandlerInstalled : Bool
  intervalInstalled : Bool
  deriving DecidableEq, Repr

/-- The fixed rescue message of grub.js (lines 10-13). -/
def grubRescueMsg : Str :=
  "error: file \x27/boot/grub/grub.cfg\x27 not found.\nEntering rescue mode...\ngrub rescue>".toList

/-- `showGrub` of grub.js: when the engine reports the GRUB configuration
deleted (`has_grub()` false) it renders the fixed rescue message and
returns before installing the keyboard handler or the countdown interval;
otherwise it renders the menu and installs both. -/
def showGrub (hasGrub : Bool) (menuRender : Str) : ShowGrubOutcome :=
  if !hasGrub then
    { rendered := grubRescueMsg
      keyHandlerInstalled := false
      intervalInstalled := false }
  else
    { rendered := menuRender
      keyHandlerInstalled := true
      intervalInstalled := true }

/- ----------------------------------------------------------------------
Virtual filesystem export/import (engine side; §3 "VFS Node", §4.1).
Modelled from the spec: the tree of files and directories with ownership
metadata, serialized losslessly into one string and rehydrated from it
(`export_user_files` / `import_user_files` called from src/js/storage.js).
---------------------------------------------------------------------- -/

mutual
/-- Modelled from the spec: a VFS node (§3): a file with name, content and
owner, or a directory with name, owner and insertion-ordered children. -/
inductive VNode where
  | file (name : Str) (content : Str) (owner : Str)
  | dir (name : Str) (owner : Str) (children : VNodeList)

/-- The insertion-ordered children of a directory. -/
inductive VNodeList where
  | nil
  | cons (hd : VNode) (tl : VNodeList)
end

/-- Unary length marker used by the serialisation: `n` ones then a zero. -/
def encNat : Nat → Str
  | 0 => ['0']
  | n + 1 => '1' :: encNat n

/-- Read back a unary length marker, returning the rest of the input. -/
def decNat : Str → Option (Nat × Str)
  | [] => none
  | c :: rest =>
    if c = '0' then some (0, rest)
    else if c = '1' then
      match decNat rest with
      | some (n, r) => some (n + 1, r)
      | none => none
    else none

/-- A length-prefixed string field. -/
def encStr (s : Str) : Str :=
  encNat s.length ++ s

/-- Read back a length-prefixed string field. -/
def decStr (input : Str) : Option (Str × Str) :=
  match decNat input with
  | some (n, rest) =>
    if n ≤ rest.length then some (rest.take n, rest.drop n) else none
  | none => none

mutual
/-- Modelled from the spec: serialise one VFS node — kind tag, then the
length-prefixed name/content/owner fields, then (for directories) the
child list (§4.1 "serialize the whole tree losslessly (names, kinds,
contents, ownership) into one string"). -/
def encNode : VNode → Str
  | .file n c o => 'F' :: (encStr n ++ encStr c ++ encStr o)
  | .dir n o cs => 'D' :: (encStr n ++ encStr o ++ encNodeList cs)

/-- Serialise a child list: `N` before each child, `E` at the end. -/
def encNodeList : VNodeList → Str
  | .nil => ['E']
  | .cons h t => 'N' :: (encNode h ++ encNodeList t)
end

mutual
/-- Fuel-indexed parser for one serialised node. -/
def decNode : Nat → Str → Option (VNode × Str)
  | 0, _ => none
  | fuel + 1, input =>
    match input with
    | 'F' :: rest =>
      match decStr rest with
      | some (n, r1) =>
        match decStr r1 with
        | some (c, r2) =>
          match decStr r2 with
          | some (o, r3) => some (.file n c o, r3)
          | none => none
        | none => none
      | none => none
    | 'D' :: rest =>
      match decStr rest with
      | some (n, r1) =>
        match decStr r1 with
        | some (o, r2) =>
          match decNodeList fuel r2 with
          | some (cs, r3) => some (.dir n o cs, r3)
          | none => none
        | none => none
      | none => none
    | _ => none

/-- Fuel-indexed parser for a serialised child list. -/
def decNodeList : Nat → Str → Option (VNodeList × Str)
  | 0, _ => none
  | fuel + 1, input =>
    match input with
    | 'E' :: rest => some (.nil, rest)
    | 'N' :: rest =>
      match decNode fuel rest with
      | some (h, r1) =>
        match decNodeList fuel r1 with
        | some (t, r2) => some (.cons h t, r2)
        | none => none
      | none => none
    | _ => none
end

mutual
/-- Structural size of a node, bounding the parsing fuel it needs. -/
def nodeSize : VNode → Nat
  | .file _ _ _ => 1
  | .dir _ _ cs => 1 + listSize cs

/-- Structural size of a child list. -/
def listSize : VNodeList → Nat
  | .nil => 1
  | .cons h t => 1 + nodeSize h + listSize t
end

/-- Modelled from the spec: `System.export_user_files` — the whole tree as
one string (§4.1). -/
def vfsExport (t : VNode) : Str :=
  encNode t

/-- Modelled from the spec: `System.import_user_files` — rehydrate the tree
from its serialised form; the whole string must be consumed. -/
def vfsImport (s : Str) : Option VNode :=
  match decNode s.length s with
  | some (t, []) => some t
  | some (_, _ :: _) => none
  | none => none

/-- Look a child up by name (insertion order, first match). -/
def childNamed (seg : Str) : VNodeList → Option VNode
  | .nil => none
  | .cons h t =>
    match h with
    | .file n _ _ => if n = seg then some h else childNamed seg t
    | .dir n _ _ => if n = seg then some h else childNamed seg t

/-- Resolve a path, given as the list of its segments (§4.1 `resolve`). -/
def resolve : VNode → List Str → Option VNode
  | t, [] => some t
  | .file _ _ _, _ :: _ => none
  | .dir _ _ cs, seg :: rest =>
    match childNamed seg cs with
    | some c => resolve c rest
    | none => none

/-- The names of a child list, in insertion order. -/
def childNames : VNodeList → List Str
  | .nil => []
  | .cons h t =>
    match h with
    | .file n _ _ => n :: childNames t
    | .dir n _ _ => n :: childNames t

/-- `read` at a path (§4.1): the content of the file the path resolves to. -/
def vfsRead (t : VNode) (p : List Str) : Option Str :=
  match resolve t p with
  | some (.file _ c _) => some c
  | _ => none

/-- `list` at a path (§4.1): the entries, in insertion order, of the
directory the path resolves to. -/
def vfsList (t : VNode) (p : List Str) : Option (List Str) :=
  match resolve t p with
  | some (.dir _ _ cs) => some (childNames cs)
  | _ => none

/- ----------------------------------------------------------------------
Codec correctness lemmas.
---------------------------------------------------------------------- -/

theorem decNat_enc (n : Nat) (rest : Str) :
    decNat (encNat n ++ rest) = some (n, rest) := by
  induction n with
  | zero => simp [encNat, decNat]
  | succ k ih => simp [encNat, decNat, ih]

theorem decStr_enc (s rest : Str) :
    decStr (encStr s ++ rest) = some (s, rest) := by
  simp [decStr, encStr, List.append_assoc, decNat_enc, List.take_left,
    List.drop_left]

theorem codec_fuel (fuel : Nat) :
    (∀ t rest, nodeSize t ≤ fuel →
       decNode fuel (encNode t ++ rest) = some (t, rest))
    ∧ (∀ l rest, listSize l ≤ fuel →
       decNodeList fuel (encNodeList l ++ rest) = some (l, rest)) := by
  induction fuel with
  | zero =>
    constructor
    · intro t rest h; cases t <;> simp [nodeSize] at h
    · intro l rest h; cases l <;> simp [listSize] at h
  | succ k ih =>
    obtain ⟨ihN, ihL⟩ := ih
    constructor
    · intro t rest h
      cases t with
      | file n c o =>
        simp [encNode, decNode, List.append_assoc, decStr_enc]
      | dir n o cs =>
        have hcs : listSize cs ≤ k := by
          simp [nodeSize] at h; omega
        simp [encNode, decNode, List.append_assoc, decStr_enc,
          ihL cs rest hcs]
    · intro l rest h
      cases l with
      | nil => simp [encNodeList, decNodeList]
      | cons hd tl =>
        have h1 : nodeSize hd ≤ k := by simp [listSize] at h; omega
        have h2 : listSize tl ≤ k := by simp [listSize] at h; omega
        simp [encNodeList, decNodeList, List.append_assoc,
          ihN hd (encNodeList tl ++ rest) h1, ihL tl rest h2]

theorem size_le_enc_length (fuel : Nat) :
    (∀ t, nodeSize t ≤ fuel → nodeSize t ≤ (encNode t).length)
    ∧ (∀ l, listSize l ≤ fuel → listSize l ≤ (encNodeList l).length) := by
  induction fuel with
  | zero =>
    constructor
    · intro t h; cases t <;> simp [nodeSize] at h
    · intro l h; cases l <;> simp [listSize] at h
  | succ k ih =>
    obtain ⟨ihN, ihL⟩ := ih
    constructor
    · intro t h
      cases t with
      | file n c o => simp [nodeSize, encNode]
      | dir n o cs =>
        have hcs : listSize cs ≤ (encNodeList cs).length :=
          ihL cs (by simp [nodeSize] at h; omega)
        simp [nodeSize, encNode]
        omega
    · intro l h
      cases l with
      | nil => simp [listSize, encNodeList]
      | cons hd tl =>
        have h1 : nodeSize hd ≤ (encNode hd).length :=
          ihN hd (by simp [listSize] at h; omega)
        have h2 : listSize tl ≤ (encNodeList tl).length :=
          ihL tl (by simp [listSize] at h; omega)
        simp [listSize, encNodeList]
        omega

theorem vfsImport_vfsExport (t : VNode) :
    vfsImport (vfsExport t) = some t := by
  have hsize : nodeSize t ≤ (encNode t).length :=
    (size_le_enc_length (nodeSize t)).1 t le_rfl
  have h := (codec_fuel (encNode t).length).1 t [] hsize
  rw [List.append_nil] at h
  simp [vfsExport, vfsImport, h]

/- ----------------------------------------------------------------------
Supporting lemmas about the string helpers and the dispatcher.
---------------------------------------------------------------------- -/

theorem mem_dropWhile_of_neg {p : Char → Bool} {c : Char} (hc : p c = false) :
    ∀ {s : Str}, c ∈ s → c ∈ s.dropWhile p := by
  intro s
  induction s with
  | nil => simp
  | cons a as ih =>
    intro h
    rw [List.dropWhile_cons]
    by_cases hpa : p a = true
    · simp only [hpa, if_true]
      cases h with
      | head => rw [hpa] at hc; cases hc
      | tail _ h2 => exact ih h2
    · rw [if_neg (by simp [hpa])]
      exact h

/-- A string containing a non-whitespace character does not trim to empty. -/
theorem jsTrim_ne_nil {c : Char} {s : Str} (hc : isWsChar c = false)
    (hmem : c ∈ s) : jsTrim s ≠ [] := by
  intro hnil
  unfold jsTrim at hnil
  rw [List.reverse_eq_nil_iff, List.dropWhile_eq_nil_iff] at hnil
  have h1 : c ∈ s.dropWhile isWsChar := mem_dropWhile_of_neg hc hmem
  have h2 : c ∈ (s.dropWhile isWsChar).reverse := List.mem_reverse.mpr h1
  have := hnil c h2
  rw [hc] at this
  cases this

/-- A suffix of `b` is a suffix of `a ++ b`. -/
theorem hasSuf_of_append {suf b : Str} (a : Str) (h : hasSuf suf b = true) :
    hasSuf suf (a ++ b) = true := by
  unfold hasSuf at h ⊢
  rw [List.reverse_append]
  exact hasPre_of_append _ h

/-- Evaluation of the dispatch cascade on a `sh: ... command not found`
result: none of the control-token branches fires, and the result reaches
the fallback decision. -/
theorem dispatch_cnf (cmd t : Str)
    (hts : jsTrim ('s' :: 'h' :: ':' :: t) ≠ [])
    (hsuf : hasSuf cnfTail ('s' :: 'h' :: ':' :: t) = true) :
    dispatchResult cmd ('s' :: 'h' :: ':' :: t) =
      if hasPre sudoPre (jsTrim cmd) = true ∨ jsTrim cmd = "reboot".toList then
        ([.printError ('s' :: 'h' :: ':' :: t)], true)
      else ([.fallbackExec cmd], false) := by
  have h0 : dispatchResult cmd ('s' :: 'h' :: ':' :: t)
      = if ('s' :: 'h' :: ':' :: t) ≠ [] ∧ jsTrim ('s' :: 'h' :: ':' :: t) ≠ [] then
          (if hasPre shHead ('s' :: 'h' :: ':' :: t) = true
              ∧ hasSuf cnfTail ('s' :: 'h' :: ':' :: t) = true then
             (if hasPre sudoPre (jsTrim cmd) = true ∨ jsTrim cmd = "reboot".toList then
                ([.printError ('s' :: 'h' :: ':' :: t)], true)
              else ([.fallbackExec cmd], false))
           else ([.printOutput ('s' :: 'h' :: ':' :: t)], false))
        else ([], false) := rfl
  rw [h0, if_pos ⟨by simp, hts⟩, if_pos ⟨rfl, hsuf⟩]

/-- Case principle for the dispatch chain: a property of every effect of
both branches holds of every effect of the conditional. -/
theorem ite_mem {c : Prop} [Decidable c] {a b : List Effect × Bool}
    (P : Effect → Prop) (ha : ∀ e ∈ a.1, P e) (hb : ∀ e ∈ b.1, P e) :
    ∀ e ∈ (if c then a else b).1, P e := by
  split
  · exact ha
  · exact hb

/-- The dispatch cascade never echoes a command line: no branch produces a
`printCommand` effect. -/
theorem dispatch_no_printCommand (cmd r : Str) :
    ∀ e ∈ (dispatchResult cmd r).1, ∀ x, e ≠ Effect.printCommand x := by
  unfold dispatchResult
  repeat' apply ite_mem
  all_goals intro e he x
  all_goals fin_cases he <;> simp

/- ======================================================================
Claim theorems.
====================================================================== -/

/-- Claim C8: VFS export serialises the whole tree (names, kinds, contents,
ownership) losslessly into one string, and importing that string
reconstructs an identical tree: after import of the most recent export the
`list` and `read` results agree on every path, and the round-trip is
idempotent. -/
theorem claim_C8_vfs_roundtrip (t : VNode) :
    ∃ t2, vfsImport (vfsExport t) = some t2
      ∧ t2 = t
      ∧ (∀ p, vfsRead t2 p = vfsRead t p ∧ vfsList t2 p = vfsList t p)
      ∧ vfsExport t2 = vfsExport t :=
  ⟨t, vfsImport_vfsExport t, rfl, fun _ => ⟨rfl, rfl⟩, rfl⟩

/-- Claim C7: when the bootloader configuration has been deleted from the
VFS (`has_grub()` is false), `showGrub` renders the fixed rescue-mode
message and installs neither the countdown interval nor the navigation key
handler. -/
theorem claim_C7_grub_rescue (menuRender : Str) (hg : Bool)
    (h : hg = false) :
    (showGrub hg menuRender).rendered = grubRescueMsg
    ∧ (showGrub hg menuRender).keyHandlerInstalled = false
    ∧ (showGrub hg menuRender).intervalInstalled = false := by
  subst h
  exact ⟨rfl, rfl, rfl⟩

theorem claim_C7_grub_rescue_witness :
    ((false : Bool) = false)
    ∧ ((showGrub false "menu".toList).rendered = grubRescueMsg
       ∧ (showGrub false "menu".toList).keyHandlerInstalled = false
       ∧ (showGrub false "menu".toList).intervalInstalled = false) :=
  ⟨rfl, claim_C7_grub_rescue "menu".toList false rfl⟩

/-- Claim C9: during password entry, every asterisk in newly typed or
pasted input is stripped before being appended to the password buffer: a
buffer free of asterisks stays free of them across any input event, and the
buffer built from any sequence of input events contains no asterisk. -/
theorem claim_C9_password_no_asterisk :
    (∀ buf cur : Str, '*' ∉ buf → '*' ∉ maskStep buf cur)
    ∧ ∀ events : List Str, '*' ∉ events.foldl maskStep [] := by
  have step : ∀ buf cur : Str, '*' ∉ buf → '*' ∉ maskStep buf cur := by
    intro buf cur hb hmem
    unfold maskStep at hmem
    split at hmem
    · rcases List.mem_append.mp hmem with h | h
      · exact hb h
      · have := (List.mem_filter.mp h).2
        simp at this
    · split at hmem
      · exact hb (List.take_subset _ _ hmem)
      · exact hb hmem
  refine ⟨step, ?_⟩
  have gen : ∀ (evs : List Str) (buf : Str), '*' ∉ buf →
      '*' ∉ evs.foldl maskStep buf := by
    intro evs
    induction evs with
    | nil => intro buf hb; simpa using hb
    | cons e es ih => intro buf hb; exact ih (maskStep buf e) (step buf e hb)
  intro events
  exact gen events [] (by simp)

theorem claim_C9_password_no_asterisk_witness :
    ('*' ∉ ("ab".toList : Str)) ∧ '*' ∉ maskStep "ab".toList "ab*c".toList :=
  ⟨by decide,
   claim_C9_password_no_asterisk.1 "ab".toList "ab*c".toList (by decide)⟩

/-- Claim C3: the login flow is the linear machine Username → Password →
Done: submitting a well-formed username from the username stage stashes it
and moves to the password stage; submitting any text from the password
stage moves to done, persists the identity record `(username, password)`
and informs the engine via `set_user` and `set_user_password`. -/
theorem claim_C3_login_machine (st : LoginState) (u p : Str)
    (hstage : st.stage = .username) (hu : jsTrim u = u) (hne : u ≠ []) :
    ((handleLoginInput st u).1.stage = .password)
    ∧ ((handleLoginInput st u).1.datasetUsername = some u)
    ∧ ((handleLoginInput (handleLoginInput st u).1 p).1.stage = .done)
    ∧ ((handleLoginInput (handleLoginInput st u).1 p).1.storedUser
        = some (u, p))
    ∧ ((handleLoginInput (handleLoginInput st u).1 p).1.sys.username
        = some u)
    ∧ ((handleLoginInput (handleLoginInput st u).1 p).1.sys.userPassword
        = some p) := by
  have h1 : (handleLoginInput st u).1
      = { st with datasetUsername := some u, stage := .password } := by
    unfold handleLoginInput
    rw [hstage]
    simp [hu, hne]
  rw [h1]
  unfold handleLoginInput saveUserInfo Sys.set_user Sys.set_user_password
  simp

theorem claim_C3_login_machine_witness :
    (jsTrim "alice".toList = "alice".toList)
    ∧ ("alice".toList ≠ ([] : Str))
    ∧ (((handleLoginInput
          ⟨.username, none, none, ⟨none, none, none⟩⟩ "alice".toList).1.stage
            = .password)
       ∧ ((handleLoginInput
            ⟨.username, none, none, ⟨none, none, none⟩⟩
              "alice".toList).1.datasetUsername = some "alice".toList)
       ∧ ((handleLoginInput (handleLoginInput
            ⟨.username, none, none, ⟨none, none, none⟩⟩ "alice".toList).1
              "pw123".toList).1.stage = .done)
       ∧ ((handleLoginInput (handleLoginInput
            ⟨.username, none, none, ⟨none, none, none⟩⟩ "alice".toList).1
              "pw123".toList).1.storedUser
            = some ("alice".toList, "pw123".toList))
       ∧ ((handleLoginInput (handleLoginInput
            ⟨.username, none, none, ⟨none, none, none⟩⟩ "alice".toList).1
              "pw123".toList).1.sys.username = some "alice".toList)
       ∧ ((handleLoginInput (handleLoginInput
            ⟨.username, none, none, ⟨none, none, none⟩⟩ "alice".toList).1
              "pw123".toList).1.sys.userPassword = some "pw123".toList)) :=
  ⟨by decide, by decide,
   claim_C3_login_machine ⟨.username, none, none, ⟨none, none, none⟩⟩
     "alice".toList "pw123".toList rfl (by decide) (by decide)⟩

/-- Claim C5: tab-completion operates on the last whitespace-delimited
token of the input: exactly one match replaces that token in the input,
two or more matches are listed in the order returned with the input left
unchanged, and zero matches change nothing. -/
theorem claim_C5_tab_completion (complete : Str → List Str)
    (inputValue : Str) :
    (∀ c, complete ((jsSplit ' ' inputValue).getLastD []) = [c] →
       autocomplete complete inputValue
         = (jsJoin " ".toList ((jsSplit ' ' inputValue).dropLast ++ [c]), []))
    ∧ (2 ≤ (complete ((jsSplit ' ' inputValue).getLastD [])).length →
       autocomplete complete inputValue
         = (inputValue,
            [.printInfo (jsJoin "  ".toList
               (complete ((jsSplit ' ' inputValue).getLastD [])))]))
    ∧ (complete ((jsSplit ' ' inputValue).getLastD []) = [] →
       autocomplete complete inputValue = (inputValue, [])) := by
  refine ⟨?_, ?_, ?_⟩
  · intro c hc
    simp only [autocomplete]
    rw [hc]
    simp
  · intro h2
    simp only [autocomplete]
    rw [if_neg (by omega), if_pos (by omega)]
  · intro h0
    simp only [autocomplete]
    rw [h0]
    simp

theorem claim_C5_tab_completion_witness :
    ((fun w => if w = "he".toList then ["help".toList] else ([] : List Str))
        ((jsSplit ' ' "he".toList).getLastD []) = ["help".toList])
    ∧ autocomplete
        (fun w => if w = "he".toList then ["help".toList] else [])
        "he".toList
      = (jsJoin " ".toList ((jsSplit ' ' "he".toList).dropLast
          ++ ["help".toList]), []) :=
  ⟨by decide,
   (claim_C5_tab_completion
      (fun w => if w = "he".toList then ["help".toList] else [])
      "he".toList).1 "help".toList (by decide)⟩

/-- Claim C6: in the bootloader Main mode the countdown decrements once per
external tick; when it reaches zero with no keypress the interval fires the
same boot as the Enter key on the currently selected entry — the entry at
`selectedIndex` boots, and with `selectedIndex = 0` the normal boot
sequence starts. -/
theorem claim_C6_grub_countdown (g : GrubMenu) (hm : g.mode = .mainMenu) :
    ((g.tick).1.countdown = g.countdown - 1)
    ∧ ((g.tick).1.selectedIndex = g.selectedIndex)
    ∧ (2 ≤ g.countdown → grubIntervalStep g = ((g.tick).1, false, []))
    ∧ (g.countdown = 1 →
        (grubIntervalStep g).2.1 = true
        ∧ (grubIntervalStep g).2.2 = grubEnterFx g
        ∧ (g.selectedIndex = 0 →
            (grubIntervalStep g).2.2
              = [.hideGrub, .showTerminal, .beginBoot])) := by
  obtain ⟨ent, sel, mode, cd⟩ := g
  have hmode : mode = GrubMode.mainMenu := hm
  subst hmode
  refine ⟨rfl, rfl, ?_, ?_⟩
  · intro h2
    have h2x : 2 ≤ cd := h2
    have hd : decide (0 < cd - 1) = true := decide_eq_true (by omega)
    have hb : ((cd - 1 : Nat) == 0) = false :=
      beq_eq_false_iff_ne.mpr (by omega)
    simp [grubIntervalStep, GrubMenu.tick, GrubMenu.should_boot, hd, hb]
    omega
  · intro h1
    have hcd : cd = 1 := h1
    subst hcd
    refine ⟨rfl, rfl, ?_⟩
    intro hs
    have hsel : sel = 0 := hs
    subst hsel
    rfl

theorem claim_C6_grub_countdown_witness :
    ((⟨["Normal Boot".toList, "Advanced Options".toList,
        "Memory Test".toList], 0, .mainMenu, 1⟩ : GrubMenu).mode
      = .mainMenu)
    ∧ (((⟨["Normal Boot".toList, "Advanced Options".toList,
          "Memory Test".toList], 0, .mainMenu, 1⟩ : GrubMenu).tick).1.countdown
        = (⟨["Normal Boot".toList, "Advanced Options".toList,
            "Memory Test".toList], 0, .mainMenu, 1⟩ : GrubMenu).countdown - 1)
    ∧ ((⟨["Normal Boot".toList, "Advanced Options".toList,
          "Memory Test".toList], 0, .mainMenu, 1⟩ : GrubMenu).countdown = 1 →
        (grubIntervalStep ⟨["Normal Boot".toList, "Advanced Options".toList,
            "Memory Test".toList], 0, .mainMenu, 1⟩).2.1 = true
        ∧ (grubIntervalStep ⟨["Normal Boot".toList,
            "Advanced Options".toList,
            "Memory Test".toList], 0, .mainMenu, 1⟩).2.2
            = grubEnterFx ⟨["Normal Boot".toList, "Advanced Options".toList,
                "Memory Test".toList], 0, .mainMenu, 1⟩
        ∧ ((⟨["Normal Boot".toList, "Advanced Options".toList,
              "Memory Test".toList], 0, .mainMenu, 1⟩ : GrubMenu).selectedIndex
              = 0 →
            (grubIntervalStep ⟨["Normal Boot".toList,
                "Advanced Options".toList,
                "Memory Test".toList], 0, .mainMenu, 1⟩).2.2
              = [.hideGrub, .showTerminal, .beginBoot])) :=
  ⟨rfl,
   (claim_C6_grub_countdown
      ⟨["Normal Boot".toList, "Advanced Options".toList,
        "Memory Test".toList], 0, .mainMenu, 1⟩ rfl).1,
   (claim_C6_grub_countdown
      ⟨["Normal Boot".toList, "Advanced Options".toList,
        "Memory Test".toList], 0, .mainMenu, 1⟩ rfl).2.2.2⟩

/-- Claim C1: for a session whose stored password is `p`, executing
`sudo <cmd>` puts the engine into the sudo-pending state
(`is_waiting_for_sudo` returns true); the next submitted line is consumed
as the password attempt: on a match the pending command executes elevated
(for `sudo reboot` the REBOOT control token is returned) and the pending
state is cleared, and on a mismatch the authentication-failure message is
returned and the pending state is cleared immediately, with no second
attempt allowed. -/
theorem claim_C1_sudo_flow (bout : Str → Str) (s : Sys) (p cmd : Str)
    (hpw : s.userPassword = some p)
    (hnp : s.sudoPending = none)
    (hline : jsTrim (sudoPre ++ cmd) = sudoPre ++ cmd) :
    ((s.exec bout (sudoPre ++ cmd)).1.is_waiting_for_sudo = true)
    ∧ ((s.exec bout (sudoPre ++ cmd)).1.sudoPending = some cmd)
    ∧ (((s.exec bout (sudoPre ++ cmd)).1.exec bout p).1.sudoPending = none)
    ∧ (cmd = "reboot".toList →
        ((s.exec bout (sudoPre ++ cmd)).1.exec bout p).2 = tokREBOOT)
    ∧ (∀ w, w ≠ p →
        ((s.exec bout (sudoPre ++ cmd)).1.exec bout w).2 = authFailMsg
        ∧ ((s.exec bout (sudoPre ++ cmd)).1.exec bout w).1.sudoPending
            = none) := by
  obtain ⟨su, spw, spend⟩ := s
  have h1 : spend = none := hnp
  subst h1
  have h2 : spw = some p := hpw
  subst h2
  have hne : sudoPre ++ cmd ≠ [] := by
    have h5 : sudoPre = 's' :: 'u' :: 'd' :: 'o' :: ' ' :: [] := rfl
    simp [h5]
  have hsud : hasPre sudoPre (sudoPre ++ cmd) = true := hasPre_append _ _
  have hdrop : (sudoPre ++ cmd).drop 5 = cmd := by
    have h5 : sudoPre.length = 5 := rfl
    rw [← h5, List.drop_left]
  have hstep1 : Sys.exec bout ⟨su, some p, none⟩ (sudoPre ++ cmd)
      = (⟨su, some p, some cmd⟩, "[sudo] password for user:".toList) := by
    unfold Sys.exec
    simp [hline, hne, hsud, hdrop]
  have hstep2 : Sys.exec bout ⟨su, some p, some cmd⟩ p
      = (⟨su, some p, none⟩, runCommand bout true cmd) := by
    simp [Sys.exec]
  rw [hstep1]
  refine ⟨rfl, rfl, ?_, ?_, ?_⟩
  · rw [show ((⟨su, some p, some cmd⟩, "[sudo] password for user:".toList)
        : Sys × Str).1 = ⟨su, some p, some cmd⟩ from rfl, hstep2]
  · intro hcmd
    subst hcmd
    rw [show ((⟨su, some p, some "reboot".toList⟩,
        "[sudo] password for user:".toList) : Sys × Str).1
        = ⟨su, some p, some "reboot".toList⟩ from rfl, hstep2]
    rfl
  · intro w hw
    have hnep : ¬((⟨su, some p, some cmd⟩ : Sys).userPassword = some w) := by
      intro h
      exact hw (Option.some.inj h).symm
    have hstep3 : Sys.exec bout ⟨su, some p, some cmd⟩ w
        = (⟨su, some p, none⟩, authFailMsg) := by
      simp only [Sys.exec]
      rw [if_neg hnep]
    rw [show ((⟨su, some p, some cmd⟩, "[sudo] password for user:".toList)
        : Sys × Str).1 = ⟨su, some p, some cmd⟩ from rfl, hstep3]
    exact ⟨rfl, rfl⟩

theorem claim_C1_sudo_flow_witness :
    ((⟨some "u".toList, some "pw".toList, none⟩ : Sys).userPassword
        = some "pw".toList)
    ∧ ((⟨some "u".toList, some "pw".toList, none⟩ : Sys).sudoPending = none)
    ∧ (jsTrim (sudoPre ++ "reboot".toList) = sudoPre ++ "reboot".toList)
    ∧ (((⟨some "u".toList, some "pw".toList, none⟩ : Sys).exec (fun _ => [])
          (sudoPre ++ "reboot".toList)).1.is_waiting_for_sudo = true)
    ∧ ((((⟨some "u".toList, some "pw".toList, none⟩ : Sys).exec (fun _ => [])
          (sudoPre ++ "reboot".toList)).1.exec (fun _ => [])
            "pw".toList).2 = tokREBOOT)
    ∧ ((((⟨some "u".toList, some "pw".toList, none⟩ : Sys).exec (fun _ => [])
          (sudoPre ++ "reboot".toList)).1.exec (fun _ => [])
            "zz".toList).2 = authFailMsg) := by
  have h := claim_C1_sudo_flow (fun _ => [])
    ⟨some "u".toList, some "pw".toList, none⟩ "pw".toList "reboot".toList
    rfl rfl (by decide)
  exact ⟨rfl, rfl, by decide, h.1, h.2.2.2.1 rfl,
    (h.2.2.2.2 "zz".toList (by decide)).1⟩

/-- Claim C2: whenever the sudo-pending state is set, the next submitted
line is treated as a password attempt and never echoed in clear text:
`handleCommand` emits no command-echo (`printCommand`) effect while the
engine is waiting for a sudo password, and while the password is being
typed the visible input consists only of asterisks. -/
theorem claim_C2_password_hidden (bout : Str → Str) (promptText : Str)
    (s : Sys) (cmd : Str) (hw : s.is_waiting_for_sudo = true) :
    (∀ e ∈ (handleCommand bout promptText s cmd).2, ∀ x,
        e ≠ Effect.printCommand x)
    ∧ (∀ buf cur : Str, ∀ c ∈ maskDisplay (maskStep buf cur), c = '*') := by
  constructor
  · have heq : (handleCommand bout promptText s cmd).2
        = if (dispatchResult cmd (s.exec bout cmd).2).2
          then (dispatchResult cmd (s.exec bout cmd).2).1
          else (dispatchResult cmd (s.exec bout cmd).2).1
            ++ [Effect.promptRefresh, Effect.scroll] := by
      unfold handleCommand
      rw [hw]
      by_cases hcl : jsTrim cmd = "clear".toList <;>
        simp [hcl] <;> split <;> simp
    intro e he x
    rw [heq] at he
    split at he
    · exact dispatch_no_printCommand cmd _ e he x
    · rcases List.mem_append.mp he with h | h
      · exact dispatch_no_printCommand cmd _ e h x
      · fin_cases h <;> simp
  · intro buf cur c hc
    exact List.eq_of_mem_replicate hc

theorem claim_C2_password_hidden_witness :
    ((⟨some "u".toList, some "pw".toList, some "reboot".toList⟩
        : Sys).is_waiting_for_sudo = true)
    ∧ ((∀ e ∈ (handleCommand (fun _ => []) []
          ⟨some "u".toList, some "pw".toList, some "reboot".toList⟩
          "zz".toList).2, ∀ x, e ≠ Effect.printCommand x)
       ∧ (∀ buf cur : Str, ∀ c ∈ maskDisplay (maskStep buf cur), c = '*')) :=
  ⟨rfl,
   claim_C2_password_hidden (fun _ => []) []
     ⟨some "u".toList, some "pw".toList, some "reboot".toList⟩
     "zz".toList rfl⟩

/-- Claim C10: for every submitted line whose engine result is a
`command not found` message, if the trimmed line starts with `sudo ` or
equals `reboot` the external out-of-sandbox fallback is never attempted:
the error message is printed and command handling returns early, keeping
these commands inside the simulated OS. -/
theorem claim_C10_no_fallback_sudo_reboot (bout : Str → Str)
    (promptText : Str) (s : Sys) (cmd t : Str)
    (hr : (s.exec bout cmd).2 = 's' :: 'h' :: ':' :: t)
    (hsuf : hasSuf cnfTail ('s' :: 'h' :: ':' :: t) = true)
    (hcmd : hasPre sudoPre (jsTrim cmd) = true
      ∨ jsTrim cmd = "reboot".toList) :
    (∀ c, Effect.fallbackExec c ∉ (handleCommand bout promptText s cmd).2)
    ∧ Effect.printError ('s' :: 'h' :: ':' :: t)
        ∈ (handleCommand bout promptText s cmd).2
    ∧ Effect.promptRefresh ∉ (handleCommand bout promptText s cmd).2 := by
  have hts : jsTrim ('s' :: 'h' :: ':' :: t) ≠ [] :=
    jsTrim_ne_nil (c := 's') (by decide) (by simp)
  have hdis : dispatchResult cmd ('s' :: 'h' :: ':' :: t)
      = ([.printError ('s' :: 'h' :: ':' :: t)], true) := by
    rw [dispatch_cnf cmd t hts hsuf, if_pos hcmd]
  have hmain : (handleCommand bout promptText s cmd).2
      = (if jsTrim cmd = "clear".toList then ([] : List Effect)
         else if s.is_waiting_for_sudo then []
         else [.printCommand (promptText ++ cmd)])
        ++ [.printError ('s' :: 'h' :: ':' :: t)] := by
    simp only [handleCommand]
    rw [hr, hdis]
    simp
  refine ⟨?_, ?_, ?_⟩
  · intro c hcmem
    rw [hmain] at hcmem
    rcases List.mem_append.mp hcmem with h | h
    · split at h
      · simp at h
      · split at h
        · simp at h
        · simp at h
    · simp at h
  · rw [hmain]
    exact List.mem_append_right _ (by simp)
  · intro hmem
    rw [hmain] at hmem
    rcases List.mem_append.mp hmem with h | h
    · split at h
      · simp at h
      · split at h
        · simp at h
        · simp at h
    · simp at h

theorem claim_C10_no_fallback_sudo_reboot_witness :
    (((⟨some "u".toList, some "reboot".toList, some "frobnicate".toList⟩
        : Sys).exec (fun _ => []) "reboot".toList).2
      = 's' :: 'h' :: ':' :: " frobnicate: command not found".toList)
    ∧ (hasSuf cnfTail
        ('s' :: 'h' :: ':' :: " frobnicate: command not found".toList)
        = true)
    ∧ (jsTrim "reboot".toList = "reboot".toList)
    ∧ (∀ c, Effect.fallbackExec c ∉
        (handleCommand (fun _ => []) []
          ⟨some "u".toList, some "reboot".toList, some "frobnicate".toList⟩
          "reboot".toList).2)
    ∧ Effect.printError
        ('s' :: 'h' :: ':' :: " frobnicate: command not found".toList)
        ∈ (handleCommand (fun _ => []) []
          ⟨some "u".toList, some "reboot".toList, some "frobnicate".toList⟩
          "reboot".toList).2 := by
  have h := claim_C10_no_fallback_sudo_reboot (fun _ => []) []
    ⟨some "u".toList, some "reboot".toList, some "frobnicate".toList⟩
    "reboot".toList " frobnicate: command not found".toList
    (by decide) (by decide) (Or.inr (by decide))
  exact ⟨by decide, by decide, by decide, h.1, h.2.1⟩

/-- Claim C4: every submitted line that matches no builtin, is not empty
and is not sudo-prefixed makes `exec` return the shell-style
`command not found` message, which acts as a signal: the handler's effect
list is never empty, and it contains the out-of-sandbox fallback retry of
the command. -/
theorem claim_C4_unrecognized_signal (bout : Str → Str) (promptText : Str)
    (s : Sys) (cmd : Str)
    (hnp : s.sudoPending = none)
    (hne : jsTrim cmd ≠ [])
    (hns : hasPre sudoPre (jsTrim cmd) = false)
    (hnb : firstWord (jsTrim cmd) ∉ builtins) :
    ((s.exec bout cmd).2 = cnfMsg (firstWord (jsTrim cmd)))
    ∧ Effect.fallbackExec cmd ∈ (handleCommand bout promptText s cmd).2
    ∧ (handleCommand bout promptText s cmd).2 ≠ [] := by
  have hreb : firstWord (jsTrim cmd) ≠ "reboot".toList := by
    intro h
    have : firstWord (jsTrim cmd) ∈ builtins := by rw [h]; decide
    exact hnb this
  obtain ⟨su, spw, spend⟩ := s
  have h1 : spend = none := hnp
  subst h1
  have hexec : Sys.exec bout ⟨su, spw, none⟩ cmd
      = (⟨su, spw, none⟩, cnfMsg (firstWord (jsTrim cmd))) := by
    simp only [Sys.exec]
    rw [if_neg hne, if_neg (by simp [hns])]
    simp only [runCommand]
    rw [if_neg hreb, if_neg hnb]
  have hcnf : cnfMsg (firstWord (jsTrim cmd))
      = 's' :: 'h' :: ':' :: (' ' :: (firstWord (jsTrim cmd)
          ++ ": command not found".toList)) := rfl
  have hts : jsTrim ('s' :: 'h' :: ':' :: (' ' :: (firstWord (jsTrim cmd)
      ++ ": command not found".toList))) ≠ [] :=
    jsTrim_ne_nil (c := 's') (by decide) (by simp)
  have hsuf : hasSuf cnfTail ('s' :: 'h' :: ':' :: (' '
      :: (firstWord (jsTrim cmd) ++ ": command not found".toList)))
      = true := by
    have hshape : ('s' :: 'h' :: ':' :: (' ' :: (firstWord (jsTrim cmd)
        ++ ": command not found".toList)))
        = ("sh: ".toList ++ firstWord (jsTrim cmd))
          ++ ": command not found".toList := by
      simp
    rw [hshape]
    exact hasSuf_of_append _ (by decide)
  have hnotcmd : ¬(hasPre sudoPre (jsTrim cmd) = true
      ∨ jsTrim cmd = "reboot".toList) := by
    rintro (h | h)
    · rw [hns] at h; cases h
    · exact hreb (by rw [h]; decide)
  have hdis : dispatchResult cmd (cnfMsg (firstWord (jsTrim cmd)))
      = ([.fallbackExec cmd], false) := by
    rw [hcnf, dispatch_cnf cmd _ hts hsuf, if_neg hnotcmd]
  have hmain : (handleCommand bout promptText
      ⟨su, spw, none⟩ cmd).2
      = (if jsTrim cmd = "clear".toList then ([] : List Effect)
         else [.printCommand (promptText ++ cmd)])
        ++ ([.fallbackExec cmd] ++ [.promptRefresh, .scroll]) := by
    simp only [handleCommand]
    rw [hexec]
    simp only [Sys.is_waiting_for_sudo]
    rw [hdis]
    simp
  refine ⟨by rw [hexec], ?_, ?_⟩
  · rw [hmain]
    exact List.mem_append_right _ (by simp)
  · rw [hmain]
    simp

theorem claim_C4_unrecognized_signal_witness :
    ((⟨none, none, none⟩ : Sys).sudoPending = none)
    ∧ (jsTrim "frobnicate".toList ≠ [])
    ∧ (hasPre sudoPre (jsTrim "frobnicate".toList) = false)
    ∧ (firstWord (jsTrim "frobnicate".toList) ∉ builtins)
    ∧ (((⟨none, none, none⟩ : Sys).exec (fun _ => [])
          "frobnicate".toList).2
        = cnfMsg (firstWord (jsTrim "frobnicate".toList)))
    ∧ Effect.fallbackExec "frobnicate".toList
        ∈ (handleCommand (fun _ => []) [] ⟨none, none, none⟩
            "frobnicate".toList).2 := by
  have h := claim_C4_unrecognized_signal (fun _ => []) []
    ⟨none, none, none⟩ "frobnicate".toList rfl (by decide) (by decide)
    (by decide)
  exact ⟨rfl, by decide, by decide, by decide, h.1, h.2.1⟩

end Kpawnd
